import Mathlib

/-!
Verification development for the RLHF trainer of the music-rag repository
(file src/rlhf/trainer.py, class RLHFTrainer).

Shallow embedding conventions:
- Python floats are modelled as rationals; the Gaussian noise drawn inside
  the scoring heuristic is an explicit parameter (its distribution is
  irrelevant to every property below, only its value enters the formula).
- Python dicts (the per-entry feedback mapping, the per-category statistics
  and the preference adjustments) are modelled as insertion-ordered
  association lists, with dict assignment replacing the value in place for
  an existing key and appending for a fresh key.
- numpy std is the population standard deviation, the square root of the
  mean squared deviation. The analyzer embedding records the mean squared
  deviation (the variance, field var_score); the standard deviation is its
  square root, which determines and is determined by var_score, so all
  statements about std are phrased through var_score.
- The external recommender call and the random query draw are supplied by
  an environment (one record per loop iteration); an exception raised
  inside the per-sample try block is a value of PyExc.
-/

/-- Audio attributes of one track row, as read through track.get with
default 0.5: a missing attribute is none. -/
structure Track where
  danceability : Option ℚ
  energy : Option ℚ
  valence : Option ℚ
deriving Repr, DecidableEq

/-- One element of RLHFTrainer.training_data, as built by collect_feedback:
the query text, the recommended track ids, the per-track feedback scores
(a dict, modelled as an insertion-ordered association list) and the
timestamp (modelled as an abstract instant). -/
structure FeedbackEntry where
  query : String
  recommendations : List String
  feedback : List (String × ℚ)
  timestamp : Nat
deriving Repr, DecidableEq

/-- One value of the query_preferences dict built by
_analyze_feedback_patterns. var_score is the squared np.std. -/
structure CatStats where
  avg_score : ℚ
  var_score : ℚ
  count : Nat
deriving Repr, DecidableEq

/-- The mutable state of an RLHFTrainer instance that the claims concern:
training_data, query_preferences and preference_adjustments. -/
structure TrainerState where
  trainingData : List FeedbackEntry
  queryPreferences : List (String × CatStats)
  preferenceAdjustments : List (String × ℚ)
deriving Repr, DecidableEq

/-- Freshly constructed trainer: all three containers empty. -/
def initState : TrainerState := ⟨[], [], []⟩

/-- A Python exception raised inside the per-sample try block of
simulate_user_feedback. Both constructors model subclasses of Exception
(a recommender failure, and any other ordinary exception a collaborator
may raise), so the bare except-Exception clause of the source catches
either one. -/
inductive PyExc
  | recommenderFailure
  | otherExc
deriving Repr, DecidableEq

/-- Per-iteration environment of the simulation loop: the index of the
query drawn by np.random.choice, the outcome of the external
get_recommendations call, the noise value drawn for the track at each
position of the recommendation list, and the timestamp pd.Timestamp.now
would record. -/
structure SampleEnv where
  queryIdx : Fin 10
  recResult : Except PyExc (List String)
  noise : Nat → ℚ
  time : Nat

/-- Characterwise lowercasing of a Python string, modelling str.lower on
ASCII text such as the keyword sets. -/
def lowerStr (s : String) : List Char := s.toList.map Char.toLower

/-- Substring test scanning every suffix of the haystack. -/
def subAt (needle : List Char) : List Char → Bool
  | [] => needle.isPrefixOf []
  | h :: t => needle.isPrefixOf (h :: t) || subAt needle t

/-- The Python expression needle in hay for strings. -/
def strContains (hay : List Char) (needle : String) : Bool :=
  subAt needle.toList hay

/-- The fixed list of ten canned queries of simulate_user_feedback. -/
def sampleQueries : List String :=
  [ "upbeat dance music for parties"
  , "calm relaxing music for studying"
  , "energetic workout music"
  , "sad emotional songs"
  , "happy positive music"
  , "acoustic folk music"
  , "electronic dance beats"
  , "rock music with guitar"
  , "jazz and blues music"
  , "classical orchestral music" ]

/-- The Python read track.get(attr, 0.5): the attribute value when the row
has one, the default 0.5 otherwise. -/
def attrOr (a : Option ℚ) : ℚ :=
  match a with
  | none => 1/2
  | some v => v

/-- Dict assignment d[k] = v on an insertion-ordered association list:
an existing key keeps its position and gets the new value, a fresh key is
appended at the end. -/
def dictInsert (d : List (String × ℚ)) (k : String) (v : ℚ) : List (String × ℚ) :=
  if d.any (fun p => p.1 = k) then
    d.map (fun p => if p.1 = k then (k, v) else p)
  else
    d ++ [(k, v)]

/-- The score computed by _simulate_track_score before the noise term and
the final clamp: base 0.5, then the five sequential keyword blocks of the
source, each a two-way if/elif on one track attribute read with
default 0.5. -/
def simulateTrackScorePre (query : String) (track : Track) : ℚ :=
  let ql := lowerStr query
  let score : ℚ := 1/2
  let score :=
    if strContains ql "dance" || strContains ql "party" then
      if attrOr track.danceability > 7/10 then score + 3/10
      else if attrOr track.danceability < 3/10 then score - 2/10
      else score
    else score
  let score :=
    if strContains ql "energetic" || strContains ql "workout" then
      if attrOr track.energy > 7/10 then score + 3/10
      else if attrOr track.energy < 3/10 then score - 2/10
      else score
    else score
  let score :=
    if strContains ql "calm" || strContains ql "relax" then
      if attrOr track.energy < 4/10 then score + 3/10
      else if attrOr track.energy > 7/10 then score - 2/10
      else score
    else score
  let score :=
    if strContains ql "happy" || strContains ql "positive" then
      if attrOr track.valence > 7/10 then score + 3/10
      else if attrOr track.valence < 3/10 then score - 2/10
      else score
    else score
  let score :=
    if strContains ql "sad" || strContains ql "emotional" then
      if attrOr track.valence < 3/10 then score + 3/10
      else if attrOr track.valence > 7/10 then score - 2/10
      else score
    else score
  score

/-- The full _simulate_track_score: the pre-clamp score plus the sampled
noise, clamped by max(0, min(1, score + noise)). -/
def simulateTrackScore (query : String) (track : Track) (noise : ℚ) : ℚ :=
  max 0 (min 1 (simulateTrackScorePre query track + noise))

/-- Reference definition written from the words of the spec, for comparison
with simulateTrackScorePre: each of the five keyword sets is tested
independently against the lowercased query and contributes its own
additive adjustment (+0.3 or -0.2 by the stated thresholds, 0 otherwise),
adjustments of several matching sets stack, and a missing attribute reads
as the neutral 0.5. -/
def specTrackScorePre (query : String) (track : Track) : ℚ :=
  let ql := lowerStr query
  let danceAdj : ℚ :=
    if strContains ql "dance" || strContains ql "party" then
      if attrOr track.danceability > 7/10 then 3/10
      else if attrOr track.danceability < 3/10 then -(2/10)
      else 0
    else 0
  let energeticAdj : ℚ :=
    if strContains ql "energetic" || strContains ql "workout" then
      if attrOr track.energy > 7/10 then 3/10
      else if attrOr track.energy < 3/10 then -(2/10)
      else 0
    else 0
  let calmAdj : ℚ :=
    if strContains ql "calm" || strContains ql "relax" then
      if attrOr track.energy < 4/10 then 3/10
      else if attrOr track.energy > 7/10 then -(2/10)
      else 0
    else 0
  let happyAdj : ℚ :=
    if strContains ql "happy" || strContains ql "positive" then
      if attrOr track.valence > 7/10 then 3/10
      else if attrOr track.valence < 3/10 then -(2/10)
      else 0
    else 0
  let sadAdj : ℚ :=
    if strContains ql "sad" || strContains ql "emotional" then
      if attrOr track.valence < 3/10 then 3/10
      else if attrOr track.valence > 7/10 then -(2/10)
      else 0
    else 0
  1/2 + danceAdj + energeticAdj + calmAdj + happyAdj + sadAdj

/-- The if/elif cascade of _categorize_query. -/
def categorizeQuery (query : String) : String :=
  let ql := lowerStr query
  if ["dance", "party", "club"].any (fun w => strContains ql w) then "dance"
  else if ["calm", "relax", "study"].any (fun w => strContains ql w) then "calm"
  else if ["energetic", "workout", "gym"].any (fun w => strContains ql w) then "energetic"
  else if ["sad", "emotional", "melancholy"].any (fun w => strContains ql w) then "sad"
  else if ["happy", "positive", "upbeat"].any (fun w => strContains ql w) then "happy"
  else "general"

/-- The ordered decision table of the spec: keyword sets in priority order
dance, calm, energetic, sad, happy, each paired with its category. -/
def specCategoryTable : List (List String × String) :=
  [ (["dance", "party", "club"], "dance")
  , (["calm", "relax", "study"], "calm")
  , (["energetic", "workout", "gym"], "energetic")
  , (["sad", "emotional", "melancholy"], "sad")
  , (["happy", "positive", "upbeat"], "happy") ]

/-- Reference categorization written from the words of the spec: the rows
of the decision table are evaluated top to bottom, the first row whose
keyword set matches the lowercased query wins, and no match yields
general. -/
def specCategorize (query : String) : String :=
  let ql := lowerStr query
  match specCategoryTable.find? (fun row => row.1.any (fun w => strContains ql w)) with
  | some row => row.2
  | none => "general"

/-- collect_feedback: appends one entry built from its arguments to
training_data, with no validation of the scores or of the keys. -/
def collectFeedback (now : Nat) (query : String) (recommendedTracks : List String)
    (userFeedback : List (String × ℚ)) (s : TrainerState) : TrainerState :=
  { s with trainingData :=
      s.trainingData ++ [⟨query, recommendedTracks, userFeedback, now⟩] }

/-- The feedback dict built inside one simulation sample: for each position
of the recommendation list, if the catalog has a row for the id, the
heuristic score for that track with the noise drawn at that position is
assigned to feedback[track_id]; ids absent from the catalog are skipped. -/
def buildFeedback (query : String) (catalog : String → Option Track)
    (ids : List String) (noise : Nat → ℚ) : List (String × ℚ) :=
  ids.enum.foldl
    (fun fb p =>
      match catalog p.2 with
      | none => fb
      | some tr => dictInsert fb p.2 (simulateTrackScore query tr (noise p.1)))
    []

/-- One iteration of the simulation loop: on an exception inside the try
block the source prints a warning and continues, leaving the state
unchanged; on success it builds the feedback dict and calls
collect_feedback. -/
def simStep (catalog : String → Option Track) (e : SampleEnv)
    (s : TrainerState) : TrainerState :=
  match e.recResult with
  | Except.error _ => s
  | Except.ok ids =>
      let query := sampleQueries.get (Fin.cast (by decide) e.queryIdx)
      collectFeedback e.time query ids (buildFeedback query catalog ids e.noise) s

/-- simulate_user_feedback: runs the per-sample body for i = 0 .. n-1. -/
def simulateUserFeedback (env : Nat → SampleEnv) (catalog : String → Option Track)
    (nSamples : Nat) (s : TrainerState) : TrainerState :=
  (List.range nSamples).foldl (fun st i => simStep catalog (env i) st) s

/-- Modelled from the spec: the error behaviour sections 4.1 and 7 claim
for the simulation loop, in which a recommender failure is caught and the
sample skipped while any other collaborator exception propagates uncaught
to the caller. Written for comparison with simulateUserFeedback, whose
bare except-Exception clause never propagates. -/
def specSimulateUserFeedback (env : Nat → SampleEnv) (catalog : String → Option Track)
    (nSamples : Nat) (s : TrainerState) : Except PyExc TrainerState :=
  (List.range nSamples).foldlM
    (fun st i =>
      match (env i).recResult with
      | Except.error PyExc.recommenderFailure => pure st
      | Except.error e => Except.error e
      | Except.ok _ => pure (simStep catalog (env i) st))
    s

/-- The categories of the entries of the log in first-occurrence order:
the key set of the query_feedback dict built by
_analyze_feedback_patterns, which creates a key the first time an entry of
that category is seen. -/
def logCategories (log : List FeedbackEntry) : List String :=
  log.foldl
    (fun acc e =>
      if categorizeQuery e.query ∈ acc then acc else acc ++ [categorizeQuery e.query])
    []

/-- The scores accumulated under one key of the query_feedback dict: the
feedback values of every entry of that category, in log order and in dict
order within an entry. -/
def categoryScores (log : List FeedbackEntry) (c : String) : List ℚ :=
  log.flatMap
    (fun e => if categorizeQuery e.query = c then e.feedback.map Prod.snd else [])

/-- numpy mean of a list of rationals. -/
def listMean (xs : List ℚ) : ℚ := xs.sum / xs.length

/-- Squared numpy std of a list of rationals: the mean squared deviation
from the mean, the population variance. -/
def listVar (xs : List ℚ) : ℚ :=
  (xs.map (fun x => (x - listMean xs) ^ 2)).sum / xs.length

/-- The query_preferences record the analyzer writes for one key of the
query_feedback dict: nothing when the score list of the category is
empty, otherwise the mean, the (squared) std and the count of the
scores. -/
def analyzerRecord (log : List FeedbackEntry) (c : String) : Option (String × CatStats) :=
  if (categoryScores log c).isEmpty then none
  else some (c, CatStats.mk (listMean (categoryScores log c))
      (listVar (categoryScores log c)) (categoryScores log c).length)

/-- _analyze_feedback_patterns: groups every feedback score of the log by
the category of its entry, then rebuilds query_preferences from scratch
with one record per category whose score list is non-empty. -/
def analyzeFeedbackPatterns (s : TrainerState) : TrainerState :=
  { s with queryPreferences :=
      (logCategories s.trainingData).filterMap (analyzerRecord s.trainingData) }

/-- The (entry, track, score) pairs of the log belonging to one category,
as the spec counts them: every feedback item of every entry whose query
categorizes to that category. -/
def categoryPairs (log : List FeedbackEntry) (c : String) :
    List (FeedbackEntry × String × ℚ) :=
  log.flatMap
    (fun e =>
      if categorizeQuery e.query = c then e.feedback.map (fun p => (e, p)) else [])

/-- Population variance written from the words of the spec: the arithmetic
mean of the squared deviations from the arithmetic mean. -/
def specPopulationVariance (xs : List ℚ) : ℚ :=
  (xs.map (fun x => (x - xs.sum / xs.length) ^ 2)).sum / xs.length

/-- The multiplier assigned by _update_recommendation_weights to one
category from its average score, by the two strict comparisons of the
source. -/
def multiplierOf (avg : ℚ) : ℚ :=
  if avg > 7/10 then 12/10
  else if avg < 3/10 then 8/10
  else 1

/-- _update_recommendation_weights: rebuilds preference_adjustments from
scratch, one multiplier per record of query_preferences. -/
def updateRecommendationWeights (s : TrainerState) : TrainerState :=
  { s with preferenceAdjustments :=
      s.queryPreferences.map (fun p => (p.1, multiplierOf p.2.avg_score)) }

/-- Outcome reported by train_rlhf: either the early return after the
skipping-training message, or the completion messages. -/
inductive TrainReport
  | skipped
  | completed
deriving Repr, DecidableEq

/-- train_rlhf: simulates 50 samples when training_data is empty, returns
a skip if it is still empty, and otherwise runs the analyzer and then the
weight updater once each; num_epochs is accepted and never read. -/
def trainRlhf (env : Nat → SampleEnv) (catalog : String → Option Track)
    (numEpochs : Nat) (s : TrainerState) : TrainerState × TrainReport :=
  let s1 := if s.trainingData.isEmpty then simulateUserFeedback env catalog 50 s else s
  if s1.trainingData.isEmpty then (s1, TrainReport.skipped)
  else (updateRecommendationWeights (analyzeFeedbackPatterns s1), TrainReport.completed)

/-- Return value of get_training_stats: the no-data message dict, or the
statistics dict with total_samples, total_feedback_items,
average_feedback_score and the three buckets of score_distribution. -/
inductive StatsResult
  | noData
  | stats (totalSamples totalFeedbackItems : Nat) (averageFeedbackScore : ℚ)
      (high medium low : Nat)
deriving Repr, DecidableEq

/-- get_training_stats: the no-data sentinel on an empty log, otherwise
the entry count, the summed dict sizes, the mean of all scores (0 when
there are none) and the three-bucket histogram with strict high and low
bounds and inclusive medium bounds. -/
def getTrainingStats (log : List FeedbackEntry) : StatsResult :=
  if log.isEmpty then StatsResult.noData
  else
    let allScores := log.flatMap (fun e => e.feedback.map Prod.snd)
    StatsResult.stats
      log.length
      (log.map (fun e => e.feedback.length)).sum
      (if allScores.isEmpty then 0 else listMean allScores)
      (allScores.countP (fun v => decide (v > 7/10)))
      (allScores.countP (fun v => decide (3/10 ≤ v) && decide (v ≤ 7/10)))
      (allScores.countP (fun v => decide (v < 3/10)))

/-! Helper lemmas shared by several claim theorems. -/

/-- The final clamp max(0, min(1, x)) lands in the unit interval. -/
lemma clamp_nonneg (x : ℚ) : 0 ≤ max 0 (min 1 x) := le_max_left 0 _

/-- The final clamp max(0, min(1, x)) is at most one. -/
lemma clamp_le_one (x : ℚ) : max 0 (min 1 x) ≤ 1 :=
  max_le (by norm_num) (min_le_left 1 x)

/-- One sequential if-block of the heuristic rewritten as the score plus an
additive adjustment. -/
lemma if_block_eq (c : Bool) (u d : Prop) [Decidable u] [Decidable d] (s a b : ℚ) :
    (if c then (if u then s + a else if d then s - b else s) else s)
      = s + (if c then (if u then a else if d then -b else 0) else 0) := by
  split_ifs <;> ring

/-- The pre-clamp heuristic score agrees with the independent-adjustments
reference definition: the sequential if-blocks of the source commute into
a sum of per-set adjustments. -/
lemma trackScorePre_eq_spec (query : String) (track : Track) :
    simulateTrackScorePre query track = specTrackScorePre query track := by
  simp only [simulateTrackScorePre, specTrackScorePre]
  rw [if_block_eq, if_block_eq, if_block_eq, if_block_eq, if_block_eq]

/-- A track with no recorded attributes scores the neutral base 0.5 before
noise: the default 0.5 satisfies none of the strict threshold tests. -/
lemma trackScorePre_missing_attrs (query : String) :
    simulateTrackScorePre query ⟨none, none, none⟩ = 1/2 := by
  norm_num [simulateTrackScorePre, attrOr]

/-- C1: for every query string, every track attribute mapping (including
out-of-range attribute values) and every noise value, the score returned
by the feedback-simulation heuristic lies in the closed interval [0,1]. -/
theorem c1_score_clamped_to_unit_interval (query : String) (track : Track) (noise : ℚ) :
    0 ≤ simulateTrackScore query track noise ∧ simulateTrackScore query track noise ≤ 1 :=
  ⟨clamp_nonneg _, clamp_le_one _⟩

/-- C2: before clamping, the heuristic equals the reference definition of
the spec — base 0.5, five keyword sets tested independently against the
lowercased query with their +0.3 / -0.2 adjustments stacking — and a
track whose danceability, energy and valence are all missing reads the
default 0.5 everywhere and triggers no adjustment branch. -/
theorem c2_heuristic_matches_spec_reference :
    (∀ (query : String) (track : Track),
        simulateTrackScorePre query track = specTrackScorePre query track)
    ∧ (∀ query : String, simulateTrackScorePre query ⟨none, none, none⟩ = 1/2) :=
  ⟨trackScorePre_eq_spec, trackScorePre_missing_attrs⟩

/-- The if/elif cascade of the source equals the top-to-bottom evaluation
of the ordered decision table of the spec. -/
lemma categorize_eq_spec (query : String) : categorizeQuery query = specCategorize query := by
  simp only [categorizeQuery, specCategorize, specCategoryTable, List.find?]
  cases h1 : ["dance", "party", "club"].any (fun w => strContains (lowerStr query) w) <;>
    cases h2 : ["calm", "relax", "study"].any (fun w => strContains (lowerStr query) w) <;>
      cases h3 : ["energetic", "workout", "gym"].any (fun w => strContains (lowerStr query) w) <;>
        cases h4 : ["sad", "emotional", "melancholy"].any (fun w => strContains (lowerStr query) w) <;>
          cases h5 : ["happy", "positive", "upbeat"].any (fun w => strContains (lowerStr query) w) <;>
            simp [h1, h2, h3, h4, h5]

/-- Every query categorizes to one of the six fixed category names. -/
lemma categorize_total (query : String) :
    categorizeQuery query ∈ ["dance", "calm", "energetic", "sad", "happy", "general"] := by
  simp only [categorizeQuery]
  split_ifs <;> simp

/-- A query whose lowercased text contains the word dance takes the first
branch of the cascade. -/
lemma categorize_dance_wins (query : String)
    (h : strContains (lowerStr query) "dance" = true) : categorizeQuery query = "dance" := by
  simp [categorizeQuery, h]

/-- C3: query categorization is a deterministic total function onto the six
categories, the keyword sets are evaluated in the fixed priority order
of the decision table of the spec with the first match winning and no
match yielding general, and any query containing the word dance — in
particular one containing both dance and calm — categorizes as dance. -/
theorem c3_categorization_total_and_priority_ordered :
    (∀ query : String, categorizeQuery query = specCategorize query)
    ∧ (∀ query : String,
        categorizeQuery query ∈ ["dance", "calm", "energetic", "sad", "happy", "general"])
    ∧ (∀ query : String,
        strContains (lowerStr query) "dance" = true → categorizeQuery query = "dance")
    ∧ categorizeQuery "dance and calm music" = "dance" :=
  ⟨categorize_eq_spec, categorize_total, categorize_dance_wins, by decide⟩

/-- Closed witness for C3: the concrete query both dance and calm satisfies
the hypothesis of the priority conjunct and indeed categorizes as dance. -/
theorem c3_witness :
    strContains (lowerStr "both dance and calm") "dance" = true
    ∧ categorizeQuery "both dance and calm" = "dance" :=
  ⟨by decide, (c3_categorization_total_and_priority_ordered.2.2.1 "both dance and calm") (by decide)⟩

/-- The two strict comparisons of the source assign 1.2 above 0.7, 0.8
below 0.3 and 1.0 in the closed middle band. -/
lemma multiplierOf_cases (avg : ℚ) :
    (avg > 7/10 → multiplierOf avg = 12/10)
    ∧ (avg < 3/10 → multiplierOf avg = 8/10)
    ∧ (¬ avg > 7/10 → ¬ avg < 3/10 → multiplierOf avg = 1) := by
  unfold multiplierOf
  refine ⟨fun h => if_pos h, fun h => ?_, fun h1 h2 => ?_⟩
  · rw [if_neg (by linarith), if_pos h]
  · rw [if_neg h1, if_neg h2]

/-- Every multiplier produced by the updater is one of the three values. -/
lemma multiplierOf_mem (avg : ℚ) :
    multiplierOf avg = 8/10 ∨ multiplierOf avg = 1 ∨ multiplierOf avg = 12/10 := by
  unfold multiplierOf
  split_ifs <;> simp

/-- C4: the weight updater maps every average score to a multiplier by the
two strict comparisons — above 0.7 boosts to 1.2, below 0.3 suppresses
to 0.8, and anything else including exactly 0.7 and exactly 0.3 is
neutral 1.0 — every produced multiplier is one of 0.8, 1.0, 1.2, and the
adjustment mapping is rebuilt in full from query_preferences on each
call, discarding any prior mapping. -/
theorem c4_weight_updater_strict_thresholds :
    (∀ s : TrainerState, (updateRecommendationWeights s).preferenceAdjustments
        = s.queryPreferences.map (fun p => (p.1, multiplierOf p.2.avg_score)))
    ∧ (∀ avg : ℚ,
        (avg > 7/10 → multiplierOf avg = 12/10)
        ∧ (avg < 3/10 → multiplierOf avg = 8/10)
        ∧ (¬ avg > 7/10 → ¬ avg < 3/10 → multiplierOf avg = 1))
    ∧ multiplierOf (7/10) = 1 ∧ multiplierOf (3/10) = 1
    ∧ (∀ (s : TrainerState) (p : String × ℚ),
        p ∈ (updateRecommendationWeights s).preferenceAdjustments →
        p.2 = 8/10 ∨ p.2 = 1 ∨ p.2 = 12/10)
    ∧ (∀ (s : TrainerState) (old : List (String × ℚ)),
        (updateRecommendationWeights { s with preferenceAdjustments := old }).preferenceAdjustments
          = (updateRecommendationWeights s).preferenceAdjustments) := by
  refine ⟨fun _ => rfl, multiplierOf_cases, ?_, ?_, ?_, fun _ _ => rfl⟩
  · exact (multiplierOf_cases _).2.2 (by norm_num) (by norm_num)
  · exact (multiplierOf_cases _).2.2 (by norm_num) (by norm_num)
  · intro s p hp
    simp only [updateRecommendationWeights, List.mem_map] at hp
    obtain ⟨q, _, rfl⟩ := hp
    exact multiplierOf_mem _

/-- All individual scores of the log in order, as the all_scores list of
get_training_stats collects them. -/
def allScoresOf (log : List FeedbackEntry) : List ℚ :=
  log.flatMap (fun e => e.feedback.map Prod.snd)

/-- get_training_stats never returns the sentinel on a non-empty log, and
returns exactly the sentinel on the empty log. -/
lemma stats_noData_iff (log : List FeedbackEntry) :
    getTrainingStats log = StatsResult.noData ↔ log = [] := by
  unfold getTrainingStats
  cases log <;> simp

/-- On a non-empty log the reporter returns the full statistics record:
entry count, summed dict sizes, guarded mean and the three filters. -/
lemma stats_populated (log : List FeedbackEntry) (h : log ≠ []) :
    getTrainingStats log =
      StatsResult.stats log.length
        ((log.map (fun e => e.feedback.length)).sum)
        (if allScoresOf log = [] then 0 else listMean (allScoresOf log))
        (((allScoresOf log).filter (fun v => decide (v > 7/10))).length)
        (((allScoresOf log).filter (fun v => decide (3/10 ≤ v) && decide (v ≤ 7/10))).length)
        (((allScoresOf log).filter (fun v => decide (v < 3/10))).length) := by
  unfold getTrainingStats allScoresOf
  simp [List.isEmpty_iff, h, List.countP_eq_length_filter]

/-- C7: the stats reporter returns the no-data sentinel exactly on the
empty feedback log (so no exception and no division by zero arises
there), and on a non-empty log returns the total entry count, the total
individual feedback-score count, the overall mean score and the
three-bucket histogram with strict high and low bounds and an inclusive
medium band. -/
theorem c7_stats_reporter_contract (log : List FeedbackEntry) :
    (getTrainingStats log = StatsResult.noData ↔ log = [])
    ∧ (log ≠ [] →
        getTrainingStats log =
          StatsResult.stats log.length
            ((log.map (fun e => e.feedback.length)).sum)
            (if allScoresOf log = [] then 0 else listMean (allScoresOf log))
            (((allScoresOf log).filter (fun v => decide (v > 7/10))).length)
            (((allScoresOf log).filter (fun v => decide (3/10 ≤ v) && decide (v ≤ 7/10))).length)
            (((allScoresOf log).filter (fun v => decide (v < 3/10))).length)) :=
  ⟨stats_noData_iff log, stats_populated log⟩

/-- Closed witness for C7: evaluating the reporter on a concrete
single-entry log through the theorem. -/
theorem c7_witness :
    getTrainingStats [⟨"great song", ["a", "b"], [("a", 4/5), ("b", 1/2)], 3⟩]
      = StatsResult.stats 1 2 (13/20) 1 1 0 := by
  rw [(c7_stats_reporter_contract _).2 (by simp)]
  norm_num [allScoresOf, listMean, List.filter]
  simp

/-- C10: on a log with at least one entry in which every feedback dict is
empty, the reporter does not return the sentinel and raises nothing: it
reports the entry count, zero feedback items, average zero and three
empty buckets. -/
theorem c10_stats_on_entries_without_scores (log : List FeedbackEntry)
    (h1 : log ≠ []) (h2 : ∀ e ∈ log, e.feedback = []) :
    getTrainingStats log = StatsResult.stats log.length 0 0 0 0 0 := by
  have hs : allScoresOf log = [] := by
    unfold allScoresOf
    rw [List.flatMap_eq_nil_iff]
    intro e he
    rw [h2 e he]
    rfl
  rw [stats_populated log h1, hs]
  simp only [if_pos rfl, List.filter_nil, List.length_nil]
  congr 1
  exact List.sum_eq_zero (by
    intro x hx
    obtain ⟨e, he, hex⟩ := List.mem_map.mp hx
    rw [← hex, h2 e he]
    rfl)

/-- Closed witness for C10: a one-entry log whose entry has recommendations
but an empty feedback dict. -/
theorem c10_witness :
    getTrainingStats [⟨"some query", ["x", "y"], [], 7⟩]
      = StatsResult.stats 1 0 0 0 0 0 :=
  c10_stats_on_entries_without_scores _ (by simp) (by simp)

/-- Closed witness for C4: the boost branch of the theorem at the concrete
average 0.75. -/
theorem c4_witness : multiplierOf (3/4) = 12/10 :=
  (c4_weight_updater_strict_thresholds.2.1 (3/4)).1 (by norm_num)

/-- One loop iteration whose recommender call raised leaves the trainer
state untouched. -/
lemma simStep_error (catalog : String → Option Track) (e : SampleEnv) (s : TrainerState)
    (er : PyExc) (h : e.recResult = Except.error er) : simStep catalog e s = s := by
  simp [simStep, h]

/-- A simulation whose every sample raises leaves the trainer state
untouched. -/
lemma simUF_all_errors (env : Nat → SampleEnv) (catalog : String → Option Track)
    (n : Nat) (s : TrainerState)
    (h : ∀ i : Nat, ∃ er, (env i).recResult = Except.error er) :
    simulateUserFeedback env catalog n s = s := by
  unfold simulateUserFeedback
  induction n with
  | zero => rfl
  | succ k ih =>
    rw [List.range_succ, List.foldl_append, ih, List.foldl_cons, List.foldl_nil]
    obtain ⟨er, her⟩ := h k
    exact simStep_error catalog (env k) s er her

/-- C5: train_rlhf ignores its epochs argument entirely; on an empty log it
first simulates 50 samples, returns a skip without raising when the log
is still empty (in particular when the recommender always fails, in
which case the state is returned unchanged), and otherwise runs the
analyzer and then the weight updater exactly once. -/
theorem c5_train_orchestrator_behaviour (env : Nat → SampleEnv)
    (catalog : String → Option Track) (s : TrainerState) :
    (∀ e1 e2 : Nat, trainRlhf env catalog e1 s = trainRlhf env catalog e2 s)
    ∧ (s.trainingData = [] → (simulateUserFeedback env catalog 50 s).trainingData = [] →
        ∀ e : Nat, trainRlhf env catalog e s
          = (simulateUserFeedback env catalog 50 s, TrainReport.skipped))
    ∧ (s.trainingData = [] → (simulateUserFeedback env catalog 50 s).trainingData ≠ [] →
        ∀ e : Nat, trainRlhf env catalog e s
          = (updateRecommendationWeights
              (analyzeFeedbackPatterns (simulateUserFeedback env catalog 50 s)),
             TrainReport.completed))
    ∧ (s.trainingData ≠ [] →
        ∀ e : Nat, trainRlhf env catalog e s
          = (updateRecommendationWeights (analyzeFeedbackPatterns s), TrainReport.completed))
    ∧ ((∀ i : Nat, ∃ er, (env i).recResult = Except.error er) → s.trainingData = [] →
        ∀ e : Nat, trainRlhf env catalog e s = (s, TrainReport.skipped)) := by
  refine ⟨fun _ _ => rfl, ?_, ?_, ?_, ?_⟩
  · intro h1 h2 e
    simp [trainRlhf, List.isEmpty_iff, h1, h2]
  · intro h1 h2 e
    simp [trainRlhf, List.isEmpty_iff, h1, h2]
  · intro h1 e
    simp [trainRlhf, List.isEmpty_iff, h1]
  · intro hall h1 e
    have hs := simUF_all_errors env catalog 50 s hall
    simp [trainRlhf, List.isEmpty_iff, h1, hs]

/-- Environment in which the recommender fails on every sample. -/
def envAllFail : Nat → SampleEnv :=
  fun _ => ⟨0, Except.error PyExc.recommenderFailure, fun _ => 0, 0⟩

/-- Closed witness for C5: training a fresh trainer against an
always-failing recommender returns the unchanged state and a skip. -/
theorem c5_witness :
    trainRlhf envAllFail (fun _ => none) 3 initState = (initState, TrainReport.skipped) :=
  (c5_train_orchestrator_behaviour envAllFail (fun _ => none) initState).2.2.2.2
    (fun _ => ⟨PyExc.recommenderFailure, rfl⟩) rfl 3

/-- The entry one successful simulation sample appends: the drawn query,
the returned ids, the heuristic feedback dict and the timestamp. -/
def sampleEntry (catalog : String → Option Track) (e : SampleEnv)
    (ids : List String) : FeedbackEntry :=
  ⟨ sampleQueries.get (Fin.cast (by decide) e.queryIdx)
  , ids
  , buildFeedback (sampleQueries.get (Fin.cast (by decide) e.queryIdx)) catalog ids e.noise
  , e.time ⟩

/-- What one loop iteration contributes to the log: nothing when the try
block raised, one entry when the recommender returned ids. -/
def sampleOutcome (catalog : String → Option Track) (e : SampleEnv) :
    Option FeedbackEntry :=
  match e.recResult with
  | Except.error _ => none
  | Except.ok ids => some (sampleEntry catalog e ids)

/-- One loop iteration appends exactly its outcome and changes nothing
else. -/
lemma simStep_trainingData (catalog : String → Option Track) (e : SampleEnv)
    (s : TrainerState) :
    simStep catalog e s
      = { s with trainingData := s.trainingData ++ (sampleOutcome catalog e).toList } := by
  unfold simStep sampleOutcome sampleEntry collectFeedback
  cases e.recResult <;> simp

/-- The log after a simulation run is the previous log followed by the
outcomes of the successful samples, in loop order: every raised sample of
whatever exception kind is skipped in place, later samples are processed
regardless, and all n budgeted iterations run. -/
lemma simUF_trainingData (env : Nat → SampleEnv) (catalog : String → Option Track)
    (n : Nat) (s : TrainerState) :
    (simulateUserFeedback env catalog n s).trainingData
      = s.trainingData
        ++ (List.range n).filterMap (fun i => sampleOutcome catalog (env i)) := by
  unfold simulateUserFeedback
  induction n with
  | zero => simp
  | succ k ih =>
    rw [List.range_succ, List.foldl_append, List.foldl_cons, List.foldl_nil,
      simStep_trainingData, List.filterMap_append]
    simp [ih]
    cases h : sampleOutcome catalog (env k) <;> simp [h]

/-- C8 amended: during simulation every sample whose try block raises —
recommender failures and any other exception alike, since the handler
catches every Exception — is skipped in place while simulation continues
over the full remaining budget, with no retry and no reduction of the
n-sample target; no exception from the collaborator propagates. -/
theorem c8_all_exceptions_skipped (env : Nat → SampleEnv)
    (catalog : String → Option Track) (n : Nat) (s : TrainerState) :
    (simulateUserFeedback env catalog n s).trainingData
      = s.trainingData
        ++ (List.range n).filterMap (fun i => sampleOutcome catalog (env i)) :=
  simUF_trainingData env catalog n s

/-- Environment of the C8 counterexample: the collaborator raises an
exception that is not a recommender failure on sample 0 and succeeds on
sample 1. -/
def envC8 : Nat → SampleEnv := fun i =>
  if i = 0 then ⟨0, Except.error PyExc.otherExc, fun _ => 0, 0⟩
  else ⟨0, Except.ok ["t1"], fun _ => 0, 1⟩

/-- Catalog of the C8 counterexample: every id resolves to one track. -/
def catalogC8 : String → Option Track :=
  fun _ => some ⟨some (9/10), some (1/2), some (1/2)⟩

/-- C8 counterexample: on the concrete two-sample run whose first sample
raises a non-recommender exception, the behaviour the spec claims would
propagate the exception to the caller, while the source catches it,
skips the sample and still collects the entry of the second sample. -/
theorem c8_counterexample :
    specSimulateUserFeedback envC8 catalogC8 2 initState = Except.error PyExc.otherExc
    ∧ (simulateUserFeedback envC8 catalogC8 2 initState).trainingData.length = 1 :=
  ⟨rfl, rfl⟩

/-- The invariant the claim asserts of the feedback log: every recorded
score lies in [0,1] and the feedback keys of every entry are among its
recommendations. -/
def logScoresAndKeysOk (log : List FeedbackEntry) : Prop :=
  ∀ e ∈ log, ∀ p ∈ e.feedback, p.1 ∈ e.recommendations ∧ 0 ≤ p.2 ∧ p.2 ≤ 1

/-- Appending one entry whose feedback is validated preserves the
invariant. -/
lemma logOk_append (log : List FeedbackEntry) (e : FeedbackEntry)
    (h1 : logScoresAndKeysOk log)
    (h2 : ∀ p ∈ e.feedback, p.1 ∈ e.recommendations ∧ 0 ≤ p.2 ∧ p.2 ≤ 1) :
    logScoresAndKeysOk (log ++ [e]) := by
  intro e' he'
  rcases List.mem_append.mp he' with h | h
  · exact h1 e' h
  · simp only [List.mem_singleton] at h
    subst h
    exact h2

/-- Dict assignment preserves a pointwise property when the assigned pair
satisfies it. -/
lemma dictInsert_forall {P : String × ℚ → Prop} (d : List (String × ℚ)) (k : String) (v : ℚ)
    (hd : ∀ p ∈ d, P p) (hkv : P (k, v)) : ∀ p ∈ dictInsert d k v, P p := by
  intro p hp
  unfold dictInsert at hp
  split at hp
  · obtain ⟨q, hq, hqe⟩ := List.mem_map.mp hp
    by_cases h : q.1 = k
    · rw [if_pos h] at hqe
      rw [← hqe]
      exact hkv
    · rw [if_neg h] at hqe
      rw [← hqe]
      exact hd q hq
  · rcases List.mem_append.mp hp with h | h
    · exact hd p h
    · simp only [List.mem_singleton] at h
      subst h
      exact hkv

/-- Every pair of the simulated feedback dict has its key among the
recommended ids and a clamped score. -/
lemma buildFeedback_forall (q : String) (catalog : String → Option Track)
    (ids : List String) (noise : Nat → ℚ) :
    ∀ p ∈ buildFeedback q catalog ids noise,
      p.1 ∈ ids ∧ 0 ≤ p.2 ∧ p.2 ≤ 1 := by
  unfold buildFeedback
  suffices H : ∀ (l : List (Nat × String)) (acc : List (String × ℚ)),
      (∀ x ∈ l, x.2 ∈ ids) → (∀ p ∈ acc, p.1 ∈ ids ∧ 0 ≤ p.2 ∧ p.2 ≤ 1) →
      ∀ p ∈ l.foldl
        (fun fb p =>
          match catalog p.2 with
          | none => fb
          | some tr => dictInsert fb p.2 (simulateTrackScore q tr (noise p.1)))
        acc,
        p.1 ∈ ids ∧ 0 ≤ p.2 ∧ p.2 ≤ 1 by
    refine H ids.enum [] (fun x hx => ?_) (by simp)
    have := List.mem_map_of_mem Prod.snd hx
    rwa [List.enum_map_snd] at this
  intro l
  induction l with
  | nil =>
    intro acc h1 h2
    simpa using h2
  | cons x xs ih =>
    intro acc h1 h2
    rw [List.foldl_cons]
    refine ih _ (fun y hy => h1 y (List.mem_cons_of_mem _ hy)) ?_
    cases hc : catalog x.2 with
    | none => simpa [hc] using h2
    | some tr =>
      simp only [hc]
      exact dictInsert_forall acc x.2 _ h2
        ⟨h1 x (List.mem_cons_self _ _), clamp_nonneg _, clamp_le_one _⟩

/-- One simulation iteration preserves the invariant: the appended entry
records the returned ids as its recommendations and only clamped scores
keyed by those ids. -/
lemma simStep_logOk (catalog : String → Option Track) (e : SampleEnv) (s : TrainerState)
    (h : logScoresAndKeysOk s.trainingData) :
    logScoresAndKeysOk (simStep catalog e s).trainingData := by
  unfold simStep
  cases hr : e.recResult with
  | error er => exact h
  | ok ids =>
    exact logOk_append _ _ h (buildFeedback_forall _ catalog ids e.noise)

/-- C9 counterexample: one direct collect_feedback call with an
out-of-range score and a key that is not among the recommendations
produces a log violating the invariant the claim asserts for arbitrary
append sequences. -/
theorem c9_counterexample :
    ¬ logScoresAndKeysOk
        (collectFeedback 0 "any query" [] [("t", 2)] initState).trainingData := by
  intro h
  have := h ⟨"any query", [], [("t", 2)], 0⟩ (by simp [collectFeedback, initState])
    ("t", 2) (by simp)
  simpa using this.1

/-- C9 amended: the invariant holds after any sequence of appends in which
simulate_user_feedback runs arbitrarily and every direct collect_feedback
call passes scores in [0,1] keyed by its recommendations; collect_feedback
itself validates nothing, so the restriction on direct calls is needed. -/
theorem c9_invariant_under_validated_appends :
    (∀ (env : Nat → SampleEnv) (catalog : String → Option Track) (n : Nat) (s : TrainerState),
        logScoresAndKeysOk s.trainingData →
        logScoresAndKeysOk (simulateUserFeedback env catalog n s).trainingData)
    ∧ (∀ (now : Nat) (q : String) (recs : List String) (fb : List (String × ℚ))
          (s : TrainerState),
        logScoresAndKeysOk s.trainingData →
        (∀ p ∈ fb, p.1 ∈ recs ∧ 0 ≤ p.2 ∧ p.2 ≤ 1) →
        logScoresAndKeysOk (collectFeedback now q recs fb s).trainingData) := by
  constructor
  · intro env catalog n s h
    unfold simulateUserFeedback
    induction n with
    | zero => exact h
    | succ k ih =>
      rw [List.range_succ, List.foldl_append, List.foldl_cons, List.foldl_nil]
      exact simStep_logOk catalog (env k) _ ih
  · intro now q recs fb s h hfb
    exact logOk_append _ _ h hfb

/-- Closed witness for C9: a validated direct collect_feedback call on a
fresh trainer, and a one-sample simulation on top of it, both keep the
invariant. -/
theorem c9_witness :
    logScoresAndKeysOk
      (simulateUserFeedback envC8 catalogC8 1
        (collectFeedback 5 "nice song" ["t"] [("t", 1/2)] initState)).trainingData :=
  c9_invariant_under_validated_appends.1 envC8 catalogC8 1 _
    (c9_invariant_under_validated_appends.2 5 "nice song" ["t"] [("t", 1/2)] initState
      (by intro e he; simp [initState] at he)
      (by intro p hp; simp at hp; rw [hp]; norm_num))

/-- Membership after one key-creation step of the query_feedback dict. -/
lemma mem_insert_cat (acc : List String) (c0 c : String) :
    (c ∈ (if c0 ∈ acc then acc else acc ++ [c0])) ↔ (c ∈ acc ∨ c = c0) := by
  split_ifs with h
  · constructor
    · exact Or.inl
    · rintro (h1 | rfl)
      · exact h1
      · exact h
  · simp [List.mem_append]

/-- Membership in the folded key list, generalized over the accumulator. -/
lemma mem_logCategories_aux (log : List FeedbackEntry) :
    ∀ (acc : List String) (c : String),
      (c ∈ log.foldl
        (fun acc e =>
          if categorizeQuery e.query ∈ acc then acc else acc ++ [categorizeQuery e.query])
        acc)
      ↔ (c ∈ acc ∨ ∃ e ∈ log, categorizeQuery e.query = c) := by
  induction log with
  | nil => simp
  | cons e es ih =>
    intro acc c
    rw [List.foldl_cons, ih, mem_insert_cat]
    constructor
    · rintro ((h | h) | h)
      · exact Or.inl h
      · exact Or.inr ⟨e, List.mem_cons_self _ _, h.symm⟩
      · obtain ⟨e', he', hc⟩ := h
        exact Or.inr ⟨e', List.mem_cons_of_mem _ he', hc⟩
    · rintro (h | ⟨e', he', hc⟩)
      · exact Or.inl (Or.inl h)
      · rcases List.mem_cons.mp he' with rfl | h'
        · exact Or.inl (Or.inr hc.symm)
        · exact Or.inr ⟨e', h', hc⟩

/-- A category is a key of the query_feedback dict exactly when some entry
of the log categorizes to it. -/
lemma mem_logCategories (log : List FeedbackEntry) (c : String) :
    c ∈ logCategories log ↔ ∃ e ∈ log, categorizeQuery e.query = c := by
  unfold logCategories
  rw [mem_logCategories_aux]
  simp

/-- The folded key list never repeats a key, generalized over the
accumulator. -/
lemma logCategories_nodup_aux (log : List FeedbackEntry) :
    ∀ acc : List String, acc.Nodup →
      (log.foldl
        (fun acc e =>
          if categorizeQuery e.query ∈ acc then acc else acc ++ [categorizeQuery e.query])
        acc).Nodup := by
  induction log with
  | nil => exact fun acc h => h
  | cons e es ih =>
    intro acc hacc
    rw [List.foldl_cons]
    refine ih _ ?_
    split_ifs with h
    · exact hacc
    · simp [List.nodup_append, hacc, h]

/-- The key list of the query_feedback dict has no duplicates. -/
lemma logCategories_nodup (log : List FeedbackEntry) : (logCategories log).Nodup :=
  logCategories_nodup_aux log [] List.nodup_nil

/-- Projecting the score out of each (entry, track, score) pair of a
category yields exactly the score list of that category. -/
lemma categoryPairs_map_snd (log : List FeedbackEntry) (c : String) :
    (categoryPairs log c).map (fun x => x.2.2) = categoryScores log c := by
  unfold categoryPairs categoryScores
  induction log with
  | nil => simp
  | cons e es ih =>
    simp only [List.flatMap_cons, List.map_append, ih]
    congr 1
    split_ifs with h
    · rw [List.map_map]
      rfl
    · rfl

/-- The score list of a category is empty exactly when its pair list is. -/
lemma categoryScores_nil_iff (log : List FeedbackEntry) (c : String) :
    categoryScores log c = [] ↔ categoryPairs log c = [] := by
  rw [← categoryPairs_map_snd, List.map_eq_nil_iff]

/-- A category with a score has an entry of that category in the log. -/
lemma categoryScores_nonempty_mem (log : List FeedbackEntry) (c : String)
    (h : categoryScores log c ≠ []) : c ∈ logCategories log := by
  rw [mem_logCategories]
  unfold categoryScores at h
  rw [Ne, List.flatMap_eq_nil_iff] at h
  push_neg at h
  obtain ⟨e, he, hne⟩ := h
  refine ⟨e, he, ?_⟩
  by_contra hc
  exact hne (if_neg hc)

/-- The population variance of the analyzer is the population variance of
the spec. -/
lemma listVar_eq_spec (xs : List ℚ) : listVar xs = specPopulationVariance xs := rfl

/-- C6: the analyzer is a function of the log alone and rebuilds
query_preferences wholesale; a category appears in the result exactly
when its (entry, track) score pair list is non-empty, the result keys
are pairwise distinct, and each record carries the pair count, the
arithmetic mean of the pair scores and the population variance (the
squared population standard deviation) of the pair scores. -/
theorem c6_analyzer_category_statistics (s : TrainerState) (c : String) :
    (∀ st : CatStats, (c, st) ∈ (analyzeFeedbackPatterns s).queryPreferences →
        st.count = (categoryPairs s.trainingData c).length
        ∧ st.avg_score = listMean ((categoryPairs s.trainingData c).map (fun x => x.2.2))
        ∧ st.var_score
            = specPopulationVariance ((categoryPairs s.trainingData c).map (fun x => x.2.2)))
    ∧ ((∃ st : CatStats, (c, st) ∈ (analyzeFeedbackPatterns s).queryPreferences)
        ↔ categoryPairs s.trainingData c ≠ [])
    ∧ ((analyzeFeedbackPatterns s).queryPreferences.map Prod.fst).Nodup
    ∧ (∀ (qp : List (String × CatStats)) (pa : List (String × ℚ)),
        (analyzeFeedbackPatterns
            { s with queryPreferences := qp, preferenceAdjustments := pa }).queryPreferences
          = (analyzeFeedbackPatterns s).queryPreferences) := by
  refine ⟨?_, ⟨?_, ?_⟩, ?_, fun _ _ => rfl⟩
  · intro st hst
    simp only [analyzeFeedbackPatterns, List.mem_filterMap] at hst
    obtain ⟨c', _, hrec⟩ := hst
    unfold analyzerRecord at hrec
    split_ifs at hrec with hemp
    obtain ⟨rfl, rfl⟩ : c' = c ∧ CatStats.mk (listMean (categoryScores s.trainingData c'))
        (listVar (categoryScores s.trainingData c'))
        (categoryScores s.trainingData c').length = st := by
      have := Option.some.inj hrec
      exact ⟨congrArg Prod.fst this, congrArg Prod.snd this⟩
    rw [categoryPairs_map_snd]
    refine ⟨?_, rfl, listVar_eq_spec _⟩
    rw [← categoryPairs_map_snd, List.length_map]
  · rintro ⟨st, hst⟩
    simp only [analyzeFeedbackPatterns, List.mem_filterMap] at hst
    obtain ⟨c', _, hrec⟩ := hst
    unfold analyzerRecord at hrec
    split_ifs at hrec with hemp
    have hc : c' = c := congrArg Prod.fst (Option.some.inj hrec)
    subst hc
    rw [Ne, ← categoryScores_nil_iff]
    rw [List.isEmpty_iff] at hemp
    exact hemp
  · intro hne
    rw [Ne, ← categoryScores_nil_iff] at hne
    have hmem := categoryScores_nonempty_mem s.trainingData c hne
    refine ⟨CatStats.mk (listMean (categoryScores s.trainingData c))
      (listVar (categoryScores s.trainingData c)) (categoryScores s.trainingData c).length, ?_⟩
    simp only [analyzeFeedbackPatterns, List.mem_filterMap]
    refine ⟨c, hmem, ?_⟩
    unfold analyzerRecord
    rw [if_neg (by rwa [List.isEmpty_iff])]
  · have hsub : (((logCategories s.trainingData).filterMap
        (analyzerRecord s.trainingData)).map Prod.fst).Sublist (logCategories s.trainingData) := by
      generalize logCategories s.trainingData = l
      induction l with
      | nil => simp
      | cons c0 cs ih =>
        rw [List.filterMap_cons]
        unfold analyzerRecord
        split_ifs
        · exact ih.cons c0
        · rw [List.map_cons]
          exact ih.cons₂ c0
    exact hsub.nodup (logCategories_nodup s.trainingData)

/-- Closed witness for C6: a one-entry log whose query categorizes as
dance yields a dance record, obtained through the iff of the theorem. -/
theorem c6_witness :
    ∃ st : CatStats,
      ("dance", st) ∈ (analyzeFeedbackPatterns
        ⟨[⟨"dance party", ["t"], [("t", 1/2)], 0⟩], [], []⟩).queryPreferences :=
  (c6_analyzer_category_statistics ⟨[⟨"dance party", ["t"], [("t", 1/2)], 0⟩], [], []⟩
    "dance").2.1.mpr (by simp [categoryPairs, categorizeQuery]; decide)
